import Mathlib

/-!
Shallow embedding of the Pareto analysis engine `pareto_decide.py` from the
repository, together with theorems checking the specification's claims.

Modelling conventions:
* Python numbers are embedded as rationals.
* Python float values that can be infinite (improvement ratios, gain scores)
  are embedded in the type `XRat`, which carries +inf, -inf and a nan element
  with Python's comparison semantics (every comparison with nan is false).
  A float division by zero, which raises in Python, is mapped to nan.
* Python `min(...)`/`max(...)` over a possibly empty sequence raise; they are
  embedded as `Option`-returning functions, and every engine function that can
  reach such a call returns `Except String ...` with the raised message.
* Python's `sorted`/`list.sort` are stable; `sortBy` below is a stable
  insertion sort, which agrees with them for the total preorders used here.
* Name fields and human-readable reason strings of the source are
  presentational and are dropped; entries are identified by their indices,
  and advantage/key-jump reports keep the criterion names.
-/

namespace ParetoDecide

/-- Stable insertion of an element into a list: the new element goes before
the first existing element it compares `le` to, so earlier-inserted equal
elements keep their relative order (models Python's stable sort). -/
def insertSorted (le : α → α → Bool) (a : α) : List α → List α
  | [] => [a]
  | b :: l => if le a b then a :: b :: l else b :: insertSorted le a l

/-- Stable insertion sort, models Python `sorted(..., key=..., reverse=...)`
once `le` encodes the key comparison (flipped for `reverse=True`). -/
def sortBy (le : α → α → Bool) : List α → List α
  | [] => []
  | a :: l => insertSorted le a (sortBy le l)

/-- Python `min(seq)`: `none` models the ValueError on an empty sequence. -/
def pyMin : List ℚ → Option ℚ
  | [] => none
  | a :: l => some (l.foldl min a)

/-- Python `max(seq)`: `none` models the ValueError on an empty sequence. -/
def pyMax : List ℚ → Option ℚ
  | [] => none
  | a :: l => some (l.foldl max a)

/-- Python `max(seq, key=f)`: first element with the largest key wins
(later elements replace the current best only when strictly larger). -/
def pyMaxKey (l : List ℕ) (f : ℕ → ℚ) : Option ℕ :=
  match l with
  | [] => none
  | a :: rest => some (rest.foldl (fun acc x => if f x > f acc then x else acc) a)

/-- Round half to even (banker's rounding), as Python's built-in `round`. -/
def roundHalfEven (q : ℚ) : ℤ :=
  let f := ⌊q⌋
  let r := q - f
  if r < 1/2 then f else if 1/2 < r then f + 1 else if f % 2 = 0 then f else f + 1

/-- Python `round(q, k)` on the idealised rational value. -/
def roundTo (q : ℚ) (k : ℕ) : ℚ :=
  (roundHalfEven (q * 10 ^ k) : ℚ) / 10 ^ k

/-- Python `int(q)` on a float: truncation toward zero. -/
def truncQ (q : ℚ) : ℤ :=
  if q < 0 then -⌊-q⌋ else ⌊q⌋

/-- Extended rationals: the value space of Python floats as used by the
engine. `inf`/`ninf` arise from the explicit `float("inf")` sentinels and
from arithmetic on them; `nan` arises from `0 * inf` and stands in for the
division-by-zero cases that Python would raise on. -/
inductive XRat where
  | nan
  | inf
  | ninf
  | val (q : ℚ)
deriving DecidableEq

/-- Python `<` on floats (comparisons involving nan are false). -/
def XRat.lt : XRat → XRat → Bool
  | .nan, _ => false
  | _, .nan => false
  | .inf, _ => false
  | _, .inf => true
  | .ninf, .ninf => false
  | .ninf, _ => true
  | .val _, .ninf => false
  | .val a, .val b => decide (a < b)

/-- Python `<=` on floats (comparisons involving nan are false). -/
def XRat.le : XRat → XRat → Bool
  | .nan, _ => false
  | _, .nan => false
  | .ninf, _ => true
  | _, .inf => true
  | .inf, _ => false
  | .val _, .ninf => false
  | .val a, .val b => decide (a ≤ b)

/-- Python multiplication of a finite float by a possibly infinite one
(`0 * inf` is nan). -/
def XRat.smul (w : ℚ) : XRat → XRat
  | .nan => .nan
  | .inf => if 0 < w then .inf else if w < 0 then .ninf else .nan
  | .ninf => if 0 < w then .ninf else if w < 0 then .inf else .nan
  | .val q => .val (w * q)

/-- Python float addition (`inf + -inf` is nan). -/
def XRat.add : XRat → XRat → XRat
  | .nan, _ => .nan
  | _, .nan => .nan
  | .inf, .ninf => .nan
  | .ninf, .inf => .nan
  | .inf, _ => .inf
  | _, .inf => .inf
  | .ninf, _ => .ninf
  | _, .ninf => .ninf
  | .val a, .val b => .val (a + b)

/-- Python float division by a finite float. Division by zero raises in
Python; it is mapped to nan here (no claim depends on that case). -/
def XRat.divQ (x : XRat) (d : ℚ) : XRat :=
  if d = 0 then .nan
  else
    match x with
    | .nan => .nan
    | .inf => if 0 < d then .inf else .ninf
    | .ninf => if 0 < d then .ninf else .inf
    | .val q => .val (q / d)

/-- Python `round(x, k)` lifted to the extended values (fixes nan/inf). -/
def XRat.roundX (x : XRat) (k : ℕ) : XRat :=
  match x with
  | .val q => .val (roundTo q k)
  | y => y

/-- A candidate configuration: the numeric fields of the input record. -/
structure Candidate where
  fields : List (String × ℚ)
deriving DecidableEq

/-- Python `cfg.get(key, 0)`. -/
def Candidate.get (c : Candidate) (k : String) : ℚ :=
  (c.fields.lookup k).getD 0

/-- A criterion as produced by `build_criteria`: name, direction string
("maximize"/"minimize") and weight. -/
structure Criterion where
  name : String
  direction : String
  weight : ℚ
deriving DecidableEq

/-- Loop body of `is_dominated`: walks the criteria with the
`any_strictly_better` accumulator, returning `false` as soon as `b` is
worse than `a` on some criterion. -/
def dominatedGo (a b : Candidate) : List Criterion → Bool → Bool
  | [], strict => strict
  | c :: rest, strict =>
    let va := a.get c.name
    let vb := b.get c.name
    if c.direction == "maximize" then
      if vb < va then false
      else dominatedGo a b rest (strict || decide (va < vb))
    else
      if va < vb then false
      else dominatedGo a b rest (strict || decide (vb < va))

/-- `is_dominated(a, b, criteria)`: true iff `b` dominates `a`
(`b` at least as good everywhere and strictly better somewhere). -/
def isDominated (a b : Candidate) (criteria : List Criterion) : Bool :=
  dominatedGo a b criteria false

/-- Per-criterion "b is no worse than a" test, used to characterise
`is_dominated`. -/
def noWorse (a b : Candidate) (c : Criterion) : Bool :=
  if c.direction == "maximize" then decide (a.get c.name ≤ b.get c.name)
  else decide (b.get c.name ≤ a.get c.name)

/-- Per-criterion "b strictly better than a" test, used to characterise
`is_dominated`. -/
def strictBetter (a b : Candidate) (c : Criterion) : Bool :=
  if c.direction == "maximize" then decide (a.get c.name < b.get c.name)
  else decide (b.get c.name < a.get c.name)

/-- `compute_pareto_front(configs, criteria)`: indices of non-dominated
items, in candidate order. -/
def computeParetoFront (configs : List Candidate) (criteria : List Criterion) : List ℕ :=
  let n := configs.length
  (List.range n).filter fun i =>
    !((List.range n).any fun j =>
      (j != i) && isDominated (configs.getD i ⟨[]⟩) (configs.getD j ⟨[]⟩) criteria)

/-- One dominator record of a dominated item (name string dropped). -/
structure Dominator where
  index : ℕ
  advantages : List String
deriving DecidableEq

/-- One entry of the dominated report (name string dropped). -/
structure DomEntry where
  index : ℕ
  dominatedBy : List Dominator
deriving DecidableEq

/-- The advantages list of `compute_dominated`: criteria on which the
front member `j` strictly beats item `i`. -/
def advantagesOf (cfgI cfgJ : Candidate) (criteria : List Criterion) : List String :=
  (criteria.filter fun c =>
    (c.direction == "maximize" && decide (cfgI.get c.name < cfgJ.get c.name)) ||
    (c.direction == "minimize" && decide (cfgJ.get c.name < cfgI.get c.name))).map
    (fun c => c.name)

/-- Loop body of `compute_dominated` for index `i`: `none` models the
`continue` on front members; otherwise up to three dominators from the
front (the source appends matches and breaks after the third). -/
def domEntryFor (configs : List Candidate) (criteria : List Criterion)
    (front : List ℕ) (i : ℕ) : Option DomEntry :=
  if i ∈ front then none
  else
    let cfgI := configs.getD i ⟨[]⟩
    some
      { index := i
        dominatedBy :=
          ((front.filter fun j => isDominated cfgI (configs.getD j ⟨[]⟩) criteria).take 3).map
            fun j => { index := j, advantages := advantagesOf cfgI (configs.getD j ⟨[]⟩) criteria } }

/-- `compute_dominated(configs, criteria, front)`: for each non-front index,
up to three front members that dominate it, with their advantages. -/
def computeDominated (configs : List Candidate) (criteria : List Criterion)
    (front : List ℕ) : List DomEntry :=
  (List.range configs.length).filterMap (domEntryFor configs criteria front)

/-- `_normalize_value(value, min_val, max_val, direction)`: scale to 0-1,
0.5 on a degenerate axis, inverted for minimize. -/
def normalizeValue (value minVal maxVal : ℚ) (direction : String) : ℚ :=
  if maxVal = minVal then 1/2
  else
    let norm := (value - minVal) / (maxVal - minVal)
    if direction == "minimize" then 1 - norm else norm

/-- Python ValueError message of `min`/`max` on an empty sequence. -/
def msgEmptyMin : String := "min() arg is an empty sequence"

/-- Python ValueError message of `max(..., key=...)` on an empty sequence. -/
def msgEmptyMax : String := "max() arg is an empty sequence"

/-- `_build_min_max(configs, criteria)`: observed min/max per criterion.
`min`/`max` of an empty value list (empty candidate set) raises. -/
def buildMinMax (configs : List Candidate) (criteria : List Criterion) :
    Except String (List (String × ℚ × ℚ)) :=
  criteria.foldlM
    (fun acc c =>
      let vals := configs.map (fun cfg => cfg.get c.name)
      match pyMin vals, pyMax vals with
      | some mn, some mx => Except.ok (acc ++ [(c.name, mn, mx)])
      | _, _ => Except.error msgEmptyMin)
    []

/-- `_compute_composite_score(config, criteria, min_max)`: weighted average
of normalized values, rounded to 4 decimals, 0 when the total weight is 0. -/
def compositeScore (config : Candidate) (criteria : List Criterion)
    (minMax : List (String × ℚ × ℚ)) : ℚ :=
  let acc := criteria.foldl
    (fun (acc : ℚ × ℚ) c =>
      let p := (minMax.lookup c.name).getD (0, 0)
      let norm := normalizeValue (config.get c.name) p.1 p.2 c.direction
      (acc.1 + c.weight * norm, acc.2 + c.weight))
    (0, 0)
  if 0 < acc.2 then roundTo (acc.1 / acc.2) 4 else 0

/-- `_metric_ratio(v_from, v_to, direction)`: direction-corrected
improvement ratio with the +inf / 1.0 zero-denominator sentinels. -/
def metricRat (vFrom vTo : ℚ) (direction : String) : XRat :=
  if direction == "maximize" then
    if vFrom ≠ 0 then .val (vTo / vFrom) else if 0 < vTo then .inf else .val 1
  else
    if vTo ≠ 0 then .val (vFrom / vTo) else if 0 < vFrom then .inf else .val 1

/-- One entry of `compute_marginal_gains`: field, both values, and the
ratio rounded to 3 decimals. -/
structure Gain where
  field : String
  vFrom : ℚ
  vTo : ℚ
  rat : XRat
deriving DecidableEq

/-- `compute_marginal_gains(cfg_from, cfg_to, criteria)`: per-criterion
`to/from` ratios (+inf when `from==0` and `to!=0`, 1.0 when both are 0). -/
def computeMarginalGains (cfgFrom cfgTo : Candidate) (criteria : List Criterion) :
    List Gain :=
  criteria.map fun c =>
    let vFrom := cfgFrom.get c.name
    let vTo := cfgTo.get c.name
    let rat : XRat :=
      if vFrom ≠ 0 then .val (vTo / vFrom) else if vTo ≠ 0 then .inf else .val 1
    { field := c.name, vFrom := vFrom, vTo := vTo, rat := rat.roundX 3 }

/-- The weighted-gain accumulation loop of `compute_gain_score` over the
non-axis criteria: returns (weighted sum of ratios, total weight). -/
def weightedGainAcc (cfgFrom cfgTo : Candidate) (criteria : List Criterion)
    (sortField : String) : XRat × ℚ :=
  criteria.foldl
    (fun (acc : XRat × ℚ) c =>
      if c.name = sortField then acc
      else
        let r := metricRat (cfgFrom.get c.name) (cfgTo.get c.name) c.direction
        (acc.1.add (XRat.smul c.weight r), acc.2 + c.weight))
    (.val 0, 0)

/-- `compute_gain_score(cfg_from, cfg_to, criteria, sort_field,
sort_direction)`: weighted non-axis improvement divided by the axis ratio,
rounded to 4 decimals; 0 when the axis start is 0 or the pair does not move
forward along the axis. -/
def computeGainScore (cfgFrom cfgTo : Candidate) (criteria : List Criterion)
    (sortField sortDirection : String) : XRat :=
  let sFrom := cfgFrom.get sortField
  let sTo := cfgTo.get sortField
  if sFrom = 0 then .val 0
  else
    let go : ℚ → XRat := fun sortRat =>
      let acc := weightedGainAcc cfgFrom cfgTo criteria sortField
      let wg := if 0 < acc.2 then acc.1.divQ acc.2 else acc.1
      (wg.divQ sortRat).roundX 4
    if sortDirection == "asc" then
      if sTo ≤ sFrom then .val 0 else go (sTo / sFrom)
    else
      if sFrom ≤ sTo then .val 0 else go (sFrom / sTo)

/-- The axis value of candidate `i` (with the `get(..., 0)` default). -/
def axisKey (configs : List Candidate) (sf : String) (i : ℕ) : ℚ :=
  Candidate.get (configs.getD i ⟨[]⟩) sf

/-- `sorted(range(len(configs)), key=..., reverse=(direction=="desc"))`:
candidate indices stably sorted along the axis. -/
def axisSortedIndices (configs : List Candidate) (sf dir : String) : List ℕ :=
  if dir == "desc" then
    sortBy (fun i j => decide (axisKey configs sf j ≤ axisKey configs sf i))
      (List.range configs.length)
  else
    sortBy (fun i j => decide (axisKey configs sf i ≤ axisKey configs sf j))
      (List.range configs.length)

/-- One sweet-spot report entry (name and reason strings dropped). -/
structure SweetSpot where
  configIndex : ℕ
  sortValue : ℚ
  gainScore : XRat
  comparedToIndex : ℕ
  marginalGains : List Gain
deriving DecidableEq

/-- One comparison step of the inner loop of `detect_sweet_spots`: skip the
pair when the axis gap is below `minGap`, otherwise keep the strictly best
gain score seen so far. -/
def sweetStep (configs : List Candidate) (criteria : List Criterion)
    (sf dir : String) (minGap : ℚ) (sortedIndices : List ℕ) (pos : ℕ)
    (acc : XRat × ℕ) (prevPos : ℕ) : XRat × ℕ :=
  let idx := sortedIndices.getD pos 0
  let cfg := configs.getD idx ⟨[]⟩
  let prevIdx := sortedIndices.getD prevPos 0
  let prevCfg := configs.getD prevIdx ⟨[]⟩
  let gap := |cfg.get sf - prevCfg.get sf|
  if gap < minGap then acc
  else
    let score := computeGainScore prevCfg cfg criteria sf dir
    if XRat.lt acc.1 score then (score, prevIdx) else acc

/-- Inner loop of `detect_sweet_spots` for a fixed sort position `pos`:
the best (gain score, comparator index) over all earlier positions. -/
def sweetBest (configs : List Candidate) (criteria : List Criterion)
    (sf dir : String) (minGap : ℚ) (sortedIndices : List ℕ) (pos : ℕ) : XRat × ℕ :=
  (List.range pos).foldl (sweetStep configs criteria sf dir minGap sortedIndices pos)
    (.val 0, sortedIndices.getD 0 0)

/-- The sweet-spot emission for sort position `pos`: emit when the best
gain score against any earlier position reaches the threshold. -/
def sweetSpotAt (configs : List Candidate) (criteria : List Criterion)
    (sf dir : String) (threshold minGap : ℚ) (sortedIndices : List ℕ)
    (pos : ℕ) : Option SweetSpot :=
  let idx := sortedIndices.getD pos 0
  let cfg := configs.getD idx ⟨[]⟩
  let best := sweetBest configs criteria sf dir minGap sortedIndices pos
  if XRat.le (.val threshold) best.1 then
    some { configIndex := idx, sortValue := cfg.get sf, gainScore := best.1,
           comparedToIndex := best.2,
           marginalGains := computeMarginalGains (configs.getD best.2 ⟨[]⟩) cfg criteria }
  else none

/-- `detect_sweet_spots(configs, criteria, sort_field, sort_direction,
threshold)`: candidates whose best gain score against an earlier candidate
reaches the threshold, sorted by gain score descending. -/
def detectSweetSpots (configs : List Candidate) (criteria : List Criterion)
    (sf dir : String) (threshold : ℚ) : List SweetSpot :=
  let sortedIndices := axisSortedIndices configs sf dir
  let sortVals := sortedIndices.map (axisKey configs sf)
  if sortVals.length < 2 then []
  else
    let sortRange := (pyMax sortVals).getD 0 - (pyMin sortVals).getD 0
    let minGap := if 0 < sortRange then sortRange * (3/100) else 0
    let spots := ((List.range sortedIndices.length).drop 1).filterMap
      (sweetSpotAt configs criteria sf dir threshold minGap sortedIndices)
    sortBy (fun a b => XRat.le b.gainScore a.gainScore) spots

/-- The per-criterion better-counting loop of `detect_traps` over the
comparison criteria: counts criteria where `j` (resp. `i`) is better by a
more than 10 percent relative margin, the margin taken against the larger
absolute value (floored at 1e-9). Returns (j_better, i_better). -/
def trapCounts (cfgI cfgJ : Candidate) (compareCriteria : List Criterion) : ℕ × ℕ :=
  compareCriteria.foldl
    (fun (acc : ℕ × ℕ) c =>
      let ci := cfgI.get c.name
      let cj := cfgJ.get c.name
      let ref := max (max |ci| |cj|) (1/1000000000)
      if c.direction == "maximize" then
        if 1/10 < (cj - ci) / ref then (acc.1 + 1, acc.2)
        else if 1/10 < (ci - cj) / ref then (acc.1, acc.2 + 1)
        else acc
      else if 1/10 < (ci - cj) / ref then (acc.1 + 1, acc.2)
      else if 1/10 < (cj - ci) / ref then (acc.1, acc.2 + 1)
      else acc)
    (0, 0)

/-- One trap report entry (name and reason strings dropped). -/
structure Trap where
  index : ℕ
  dominatedByIndex : ℕ
deriving DecidableEq

/-- `detect_traps(configs, criteria, sort_field, tolerance)`: items close on
the axis (when an axis is given) but worse by more than 10 percent on at
least two other criteria and better on none. The source's `found` set never
fires (each `i` is visited once and the inner loop breaks after a match), so
the search is: for each `i`, the first matching `j`. -/
def detectTraps (configs : List Candidate) (criteria : List Criterion)
    (sortField : Option String) (tolerance : ℚ) : List Trap :=
  let n := configs.length
  (List.range n).filterMap fun i =>
    (List.range n).findSome? fun j =>
      if j = i then none
      else
        let proxOk : Bool :=
          match sortField with
          | some sf =>
            let viS := (configs.getD i ⟨[]⟩).get sf
            let vjS := (configs.getD j ⟨[]⟩).get sf
            let ref := max (max |viS| |vjS|) (1/1000000000)
            decide (|viS - vjS| / ref ≤ tolerance)
          | none => true
        if !proxOk then none
        else
          let compareCriteria :=
            match sortField with
            | some sf => criteria.filter fun c => c.name ≠ sf
            | none => criteria
          let counts := trapCounts (configs.getD i ⟨[]⟩) (configs.getD j ⟨[]⟩) compareCriteria
          if 2 ≤ counts.1 && counts.2 = 0 then
            some { index := i, dominatedByIndex := j }
          else none

/-- The key-jump filter of `compute_tier_transitions`: fields whose rounded
marginal-gain ratio is above 1.2 or strictly between 0 and 0.83. -/
def keyJumpFields (gains : List Gain) : List String :=
  (gains.filter fun g =>
    XRat.lt (.val (12/10)) g.rat ||
      (XRat.lt (.val 0) g.rat && XRat.lt g.rat (.val (83/100)))).map
    (fun g => g.field)

/-- One tier-transition report entry (name strings dropped). -/
structure Transition where
  fromIdx : ℕ
  toIdx : ℕ
  delta : ℚ
  sortRat : ℚ
  keyJumps : List String
  gainScore : XRat
deriving DecidableEq

/-- Body of the transition loop of `compute_tier_transitions` for one
consecutive representative pair; `none` models `continue` on a small delta. -/
def mkTransition (configs : List Candidate) (criteria : List Criterion)
    (sf dir : String) (minDelta : ℚ) (p : ℕ × ℕ) : Option Transition :=
  let cfgFrom := configs.getD p.1 ⟨[]⟩
  let cfgTo := configs.getD p.2 ⟨[]⟩
  let sFrom := cfgFrom.get sf
  let sTo := cfgTo.get sf
  let delta := |sTo - sFrom|
  if delta < minDelta then none
  else
    some
      { fromIdx := p.1, toIdx := p.2, delta := roundTo delta 4,
        sortRat := roundTo (if sFrom ≠ 0 then sTo / sFrom else 0) 3,
        keyJumps := keyJumpFields (computeMarginalGains cfgFrom cfgTo criteria),
        gainScore := computeGainScore cfgFrom cfgTo criteria sf dir }

/-- `compute_tier_transitions(configs, criteria, sort_field,
sort_direction)`: disproportionate jumps between consecutive per-bucket
representatives along the axis. -/
def computeTierTransitions (configs : List Candidate) (criteria : List Criterion)
    (sf dir : String) : List Transition :=
  let sortedIndices := axisSortedIndices configs sf dir
  let sortVals := sortedIndices.map (axisKey configs sf)
  if sortVals.length < 2 then []
  else
    let sortRange := (pyMax sortVals).getD 0 - (pyMin sortVals).getD 0
    if sortRange = 0 then []
    else
      let targetBuckets : ℕ := min 15 sortVals.length
      let bucketSize : ℚ := if 0 < (targetBuckets : ℚ) then sortRange / targetBuckets else 1
      let rep :=
        (sortedIndices.foldl
          (fun (acc : List ℤ × List ℕ) idx =>
            let val := axisKey configs sf idx
            let bucket : ℤ := if 0 < bucketSize then truncQ (val / bucketSize) else 0
            if bucket ∈ acc.1 then acc else (acc.1 ++ [bucket], acc.2 ++ [idx]))
          ([], [])).2
      let minDelta := sortRange * (3/100)
      (rep.zip rep.tail).filterMap (mkTransition configs criteria sf dir minDelta)

/-- One per-item entry of `compute_front_tradeoffs` (name dropped). -/
structure TradeItem where
  index : ℕ
  strengths : List String
  weaknesses : List String
deriving DecidableEq

/-- One pairwise entry of `compute_front_tradeoffs` (names kept as indices). -/
structure PairTrade where
  aIdx : ℕ
  bIdx : ℕ
  aBetterAt : List String
  bBetterAt : List String
deriving DecidableEq

/-- The single element of the `compute_front_tradeoffs` result list. -/
structure FrontTradeoffs where
  items : List TradeItem
  pairwise : List PairTrade
deriving DecidableEq

/-- Strict per-criterion winners of `a` over `b` by raw value. -/
def betterAt (a b : Candidate) (criteria : List Criterion) : List String :=
  (criteria.filter fun c =>
    (c.direction == "maximize" && decide (b.get c.name < a.get c.name)) ||
    (!(c.direction == "maximize") && decide (a.get c.name < b.get c.name))).map
    (fun c => c.name)

/-- `compute_front_tradeoffs(configs, criteria, front)`: per-front-member
strengths/weaknesses by normalized value, plus pairwise strict winners;
empty for fronts of fewer than two members. -/
def computeFrontTradeoffs (configs : List Candidate) (criteria : List Criterion)
    (front : List ℕ) : Except String (List FrontTradeoffs) :=
  if front.length < 2 then Except.ok []
  else do
    let minMax ← buildMinMax configs criteria
    let items := front.map fun idx =>
      let cfg := configs.getD idx ⟨[]⟩
      { index := idx
        strengths := (criteria.filter fun c =>
          let p := (minMax.lookup c.name).getD (0, 0)
          decide (8/10 ≤ normalizeValue (cfg.get c.name) p.1 p.2 c.direction)).map
          (fun c => c.name)
        weaknesses := (criteria.filter fun c =>
          let p := (minMax.lookup c.name).getD (0, 0)
          decide (normalizeValue (cfg.get c.name) p.1 p.2 c.direction ≤ 2/10)).map
          (fun c => c.name) : TradeItem }
    let pairwise := (List.range front.length).flatMap fun iPos =>
      ((List.range front.length).drop (iPos + 1)).filterMap fun jPos =>
        let aIdx := front.getD iPos 0
        let bIdx := front.getD jPos 0
        let a := configs.getD aIdx ⟨[]⟩
        let b := configs.getD bIdx ⟨[]⟩
        let aBetter := betterAt a b criteria
        let bBetter := betterAt b a criteria
        if aBetter.isEmpty && bBetter.isEmpty then none
        else some { aIdx := aIdx, bIdx := bIdx, aBetterAt := aBetter, bBetterAt := bBetter }
    Except.ok [{ items := items, pairwise := pairwise }]

/-- `_auto_detect_sort_field(criteria)`: the single minimize criterion, if
exactly one exists. The empty string plays Python's `None`/falsy value. -/
def autoDetectSortField (criteria : List Criterion) : String × String :=
  match criteria.filter (fun c => c.direction == "minimize") with
  | [c] => (c.name, "asc")
  | _ => ("", "asc")

/-- One entry of `compute_weighted_ranking` (name dropped). -/
structure Ranked where
  index : ℕ
  compScore : ℚ
  rank : ℕ
deriving DecidableEq

/-- `compute_weighted_ranking(configs, criteria)`: all items ranked by
composite score descending (stable), ranks starting at 1. -/
def computeWeightedRanking (configs : List Candidate) (criteria : List Criterion) :
    Except String (List Ranked) := do
  let minMax ← buildMinMax configs criteria
  let base := (List.range configs.length).map fun i =>
    (i, compositeScore (configs.getD i ⟨[]⟩) criteria minMax)
  let sorted := sortBy (fun a b => decide (b.2 ≤ a.2)) base
  Except.ok (sorted.enum.map fun p => { index := p.2.1, compScore := p.2.2, rank := p.1 + 1 })

/-- One entry of `compute_segment_bests` (names and label dropped). -/
structure Segment where
  rangeLow : ℚ
  rangeHigh : ℚ
  bestIndex : ℕ
  compScore : ℚ
  alternatives : List ℕ
  itemCount : ℕ
deriving DecidableEq

/-- Loop body of `compute_segment_bests` for one segment index; `none`
models `continue` on an empty segment. -/
def segmentStep (configs : List Candidate) (criteria : List Criterion)
    (vals : List ℚ) (lo width : ℚ) (numSegments : ℕ)
    (minMax : List (String × ℚ × ℚ)) (sf : String) (segIdx : ℕ) :
    Except String (Option Segment) :=
  let n := configs.length
  let segLo := lo + (segIdx : ℚ) * width
  let segHi := segLo + width
  let indices := (List.range n).filter fun i =>
    let v := vals.getD i 0
    (decide (segLo ≤ v) && decide (v < segHi)) ||
      (decide (segIdx = numSegments - 1) && decide (v = segHi))
  if indices.isEmpty then Except.ok none
  else
    let nonSortCriteria := criteria.filter fun c => c.name ≠ sf
    let scoreCriteria := if nonSortCriteria.isEmpty then criteria else nonSortCriteria
    let localConfigs := indices.map fun i => configs.getD i ⟨[]⟩
    let localFrontLocal :=
      if nonSortCriteria.isEmpty then List.range indices.length
      else computeParetoFront localConfigs nonSortCriteria
    let localFrontGlobal := localFrontLocal.map fun li => indices.getD li 0
    match pyMaxKey localFrontGlobal
        (fun i => compositeScore (configs.getD i ⟨[]⟩) scoreCriteria minMax) with
    | none => Except.error msgEmptyMax
    | some bestIdx =>
      let bestScore := compositeScore (configs.getD bestIdx ⟨[]⟩) scoreCriteria minMax
      Except.ok (some
        { rangeLow := roundTo segLo 4, rangeHigh := roundTo segHi 4,
          bestIndex := bestIdx, compScore := bestScore,
          alternatives := localFrontGlobal.filter (fun i => i ≠ bestIdx),
          itemCount := indices.length })

/-- `compute_segment_bests(configs, criteria, sort_field, sort_direction)`
with the default segment count: equal-width axis segments, best local-front
member by composite score per non-empty segment. -/
def computeSegmentBests (configs : List Candidate) (criteria : List Criterion)
    (sf dir : String) : Except String (List Segment) :=
  let vals := configs.map fun cfg => cfg.get sf
  match pyMin vals, pyMax vals with
  | some lo, some hi =>
    if lo = hi then Except.ok []
    else do
      let n := configs.length
      let numSegments := max 3 (min 8 (Nat.sqrt n))
      let width := (hi - lo) / (numSegments : ℚ)
      let minMax ← buildMinMax configs criteria
      (List.range numSegments).foldlM
        (fun segments segIdx => do
          match ← segmentStep configs criteria vals lo width numSegments minMax sf segIdx with
          | none => pure segments
          | some seg => pure (segments ++ [seg]))
        []
  | _, _ => Except.error msgEmptyMin

/-- The summary block of the analysis result. -/
structure Summary where
  total : ℕ
  paretoCount : ℕ
  paretoRat : ℚ
  sweetSpotsCount : Option ℕ
  trapsCount : Option ℕ
  segmentCount : Option ℕ
deriving DecidableEq

/-- The analysis result structure; `Option` fields model keys that are only
conditionally present in the source's result dictionary. -/
structure AnalysisResult where
  summary : Summary
  paretoFront : List ℕ
  dominated : List DomEntry
  frontTradeoffs : Option (List FrontTradeoffs)
  sortFieldUsed : Option String
  sortDirectionUsed : Option String
  sortFieldAutoDetected : Bool
  sweetSpots : Option (List SweetSpot)
  traps : Option (List Trap)
  tierTransitions : Option (List Transition)
  segmentBests : Option (List Segment)
  weightedRanking : Option (List Ranked)
deriving DecidableEq

/-- `analyze(configs, criteria, sort_field, sort_direction, threshold,
tolerance)`: the full pipeline. The empty string for `sortField` plays
Python's `None`/falsy value; the filling of default name fields is dropped
as presentational. -/
def analyze (configs : List Candidate) (criteria : List Criterion)
    (sortField sortDirection : String) (threshold tolerance : ℚ) :
    Except String AnalysisResult := do
  let front := computeParetoFront configs criteria
  let dominated := computeDominated configs criteria front
  let summary0 : Summary :=
    { total := configs.length, paretoCount := front.length,
      paretoRat :=
        if configs.isEmpty then 0
        else roundTo ((front.length : ℚ) / (configs.length : ℚ)) 3,
      sweetSpotsCount := none, trapsCount := none, segmentCount := none }
  let frontTradeoffs ←
    if 2 ≤ front.length then do
      let ft ← computeFrontTradeoffs configs criteria front
      pure (some ft)
    else pure none
  let det := autoDetectSortField criteria
  let sf1 := if sortField = "" then (if det.1 ≠ "" then det.1 else sortField) else sortField
  let dir1 := if sortField = "" then (if det.1 ≠ "" then det.2 else sortDirection) else sortDirection
  let auto1 : Bool := if sortField = "" then decide (det.1 ≠ "") else false
  if sf1 ≠ "" then do
    let sweetSpots := detectSweetSpots configs criteria sf1 dir1 threshold
    let traps := detectTraps configs criteria (some sf1) tolerance
    let transitions := computeTierTransitions configs criteria sf1 dir1
    let segmentBests ← computeSegmentBests configs criteria sf1 dir1
    pure
      { summary :=
          { summary0 with
            sweetSpotsCount := some sweetSpots.length,
            trapsCount := some traps.length,
            segmentCount := some segmentBests.length },
        paretoFront := front, dominated := dominated, frontTradeoffs := frontTradeoffs,
        sortFieldUsed := some sf1, sortDirectionUsed := some dir1,
        sortFieldAutoDetected := auto1,
        sweetSpots := some sweetSpots, traps := some traps,
        tierTransitions := some transitions, segmentBests := some segmentBests,
        weightedRanking := none }
  else do
    let traps := detectTraps configs criteria none tolerance
    let ranking ← computeWeightedRanking configs criteria
    pure
      { summary :=
          { summary0 with
            trapsCount := if traps.isEmpty then none else some traps.length },
        paretoFront := front, dominated := dominated, frontTradeoffs := frontTradeoffs,
        sortFieldUsed := none, sortDirectionUsed := none, sortFieldAutoDetected := false,
        sweetSpots := none, traps := if traps.isEmpty then none else some traps,
        tierTransitions := none, segmentBests := none,
        weightedRanking := some ranking }

/-- A criterion descriptor of structured input: name plus optional
direction and weight (the `cd.get(...)` defaults of the source). -/
structure CD where
  cname : String
  cdir : Option String
  cweight : Option ℚ
deriving DecidableEq

/-- The error message of `build_criteria` when no criteria result
(`sys.exit(1)` in the source). -/
def msgNoCriteria : String := "no criteria specified"

/-- The criteria list accumulated by `build_criteria(structured_meta,
maximize, minimize, criteria_arg, weight_overrides)` before its emptiness
check; `structuredCriteria` is `some ...` exactly when the structured input
carries a criteria key. -/
def builtCriteria (structuredCriteria : Option (List CD))
    (maximize minimize : List String) (criteriaArg : List (String × String))
    (weightOverrides : List (String × ℚ)) : List Criterion :=
  match structuredCriteria with
    | some cds =>
      cds.map fun cd =>
        { name := cd.cname, direction := cd.cdir.getD ("maximize"),
          weight := (weightOverrides.lookup cd.cname).getD (cd.cweight.getD 1) }
    | none =>
      let afterArg := criteriaArg.foldl
        (fun (acc : List Criterion × List String) p =>
          (acc.1 ++ [{ name := p.1, direction := p.2,
                       weight := (weightOverrides.lookup p.1).getD 1 }],
           acc.2 ++ [p.1]))
        ([], [])
      let afterMax := maximize.foldl
        (fun (acc : List Criterion × List String) nm =>
          if nm ∈ acc.2 then acc
          else (acc.1 ++ [{ name := nm, direction := "maximize",
                            weight := (weightOverrides.lookup nm).getD 1 }],
                acc.2 ++ [nm]))
        afterArg
      let afterMin := minimize.foldl
        (fun (acc : List Criterion × List String) nm =>
          if nm ∈ acc.2 then acc
          else (acc.1 ++ [{ name := nm, direction := "minimize",
                            weight := (weightOverrides.lookup nm).getD 1 }],
                acc.2 ++ [nm]))
        afterMax
      afterMin.1

/-- `build_criteria(...)`: the unified criteria list, with the fatal
configuration error when the resulting list is empty. -/
def buildCriteria (structuredCriteria : Option (List CD))
    (maximize minimize : List String) (criteriaArg : List (String × String))
    (weightOverrides : List (String × ℚ)) : Except String (List Criterion) :=
  let built := builtCriteria structuredCriteria maximize minimize criteriaArg weightOverrides
  if built = [] then Except.error msgNoCriteria else Except.ok built

/-- The `main` ordering of the source around the core: `build_criteria`
runs first and exits on a configuration error, so `analyze` is never
reached with an empty criteria list. -/
def runPipeline (structuredCriteria : Option (List CD))
    (maximize minimize : List String) (criteriaArg : List (String × String))
    (weightOverrides : List (String × ℚ)) (configs : List Candidate)
    (sortField sortDirection : String) (threshold tolerance : ℚ) :
    Except String AnalysisResult := do
  let criteria ← buildCriteria structuredCriteria maximize minimize criteriaArg weightOverrides
  analyze configs criteria sortField sortDirection threshold tolerance

/-! Concrete inputs used by witnesses and counterexamples. -/

/-- Two candidates along a cost axis with a 0.832 perf ratio and a negative
temp ratio between them (tier-transition boundary checks). -/
def c4configs : List Candidate :=
  [⟨[("cost", 10), ("perf", 1000), ("temp", -5)]⟩,
   ⟨[("cost", 20), ("perf", 832), ("temp", 5)]⟩]

/-- Criteria for `c4configs`: minimize cost, maximize perf and temp. -/
def c4criteria : List Criterion :=
  [⟨"cost", "minimize", 1⟩, ⟨"perf", "maximize", 1⟩, ⟨"temp", "maximize", 1⟩]

/-- The single tier transition produced by `c4configs` (checked by kernel
computation in the corresponding witness). -/
def c4trans : Transition :=
  { fromIdx := 0, toIdx := 1, delta := 10, sortRat := 2,
    keyJumps := ["cost"], gainScore := .val (-21/500) }

/-- Two candidates sharing the same axis value (zero observed axis range). -/
def c5configs : List Candidate :=
  [⟨[("cost", 5), ("perf", 1)]⟩, ⟨[("cost", 5), ("perf", 2)]⟩]

/-- Criteria for `c5configs`. -/
def c5criteria : List Criterion :=
  [⟨"cost", "minimize", 1⟩, ⟨"perf", "maximize", 1⟩]

/-- The spec's Scenario B input: cost 100/101, perf 10/11. -/
def c10configs : List Candidate :=
  [⟨[("cost", 100), ("perf", 10)]⟩, ⟨[("cost", 101), ("perf", 11)]⟩]

/-- Criteria for `c10configs`. -/
def c10criteria : List Criterion :=
  [⟨"cost", "minimize", 1⟩, ⟨"perf", "maximize", 1⟩]

/-- A dominated/dominating pair for the partition witness: candidate 1 beats
candidate 0 on both criteria. -/
def c3configs : List Candidate :=
  [⟨[("cost", 10), ("perf", 1)]⟩, ⟨[("cost", 5), ("perf", 2)]⟩]

/-- Criteria for `c3configs`. -/
def c3criteria : List Criterion :=
  [⟨"cost", "minimize", 1⟩, ⟨"perf", "maximize", 1⟩]

/-! Helper lemmas about the embedded definitions. -/

/-- The early-exit loop of `is_dominated` equals: no criterion where `b` is
worse, and (accumulator or some criterion where `b` is strictly better). -/
theorem dominatedGo_eq (a b : Candidate) (cs : List Criterion) (s : Bool) :
    dominatedGo a b cs s =
      (cs.all (noWorse a b) && (s || cs.any (strictBetter a b))) := by
  induction cs generalizing s with
  | nil => simp [dominatedGo]
  | cons c rest ih =>
    simp only [dominatedGo, List.all_cons, List.any_cons]
    by_cases hd : (c.direction == "maximize") = true
    · by_cases hw : b.get c.name < a.get c.name
      · simp [hd, hw, noWorse, not_le.mpr hw]
      · have hle : a.get c.name ≤ b.get c.name := le_of_not_lt hw
        have hnw : noWorse a b c = true := by simp [noWorse, hd, hle]
        have hsb : strictBetter a b c = decide (a.get c.name < b.get c.name) := by
          simp [strictBetter, hd]
        simp only [hd, if_true, hw, if_false, ih, hnw, hsb, Bool.true_and]
        cases s <;> cases hb : decide (a.get c.name < b.get c.name) <;>
          simp [Bool.or_assoc]
    · by_cases hw : a.get c.name < b.get c.name
      · simp [hd, hw, noWorse, not_le.mpr hw]
      · have hle : b.get c.name ≤ a.get c.name := le_of_not_lt hw
        have hnw : noWorse a b c = true := by simp [noWorse, hd, hle]
        have hsb : strictBetter a b c = decide (b.get c.name < a.get c.name) := by
          simp [strictBetter, hd]
        simp only [hd, Bool.false_eq_true, if_false, hw, ih, hnw, hsb, Bool.true_and]
        cases s <;> cases hb : decide (b.get c.name < a.get c.name) <;>
          simp [Bool.or_assoc]

/-- `isDominated` as the conjunction "never worse, somewhere strictly
better". -/
theorem isDominated_eq (a b : Candidate) (cs : List Criterion) :
    isDominated a b cs = (cs.all (noWorse a b) && cs.any (strictBetter a b)) := by
  rw [isDominated, dominatedGo_eq]; simp

/-- A candidate is never strictly better than itself on any criterion. -/
theorem strictBetter_self (a : Candidate) (c : Criterion) :
    strictBetter a a c = false := by
  rw [strictBetter]; split <;> simp

/-- A flat pair along the axis always gets gain score 0, regardless of the
direction string. -/
theorem computeGainScore_flat (cfgFrom cfgTo : Candidate) (criteria : List Criterion)
    (sf dir : String) (h : cfgFrom.get sf = cfgTo.get sf) :
    computeGainScore cfgFrom cfgTo criteria sf dir = .val 0 := by
  by_cases h0 : cfgFrom.get sf = 0
  · simp [computeGainScore, h0]
  · simp [computeGainScore, h0, h]

/-- Membership through stable insertion. -/
theorem mem_insertSorted (le : α → α → Bool) (x a : α) (l : List α) :
    a ∈ insertSorted le x l ↔ a = x ∨ a ∈ l := by
  induction l with
  | nil => simp [insertSorted]
  | cons b t ih =>
    rw [insertSorted]
    split
    · simp
    · simp only [List.mem_cons, ih]
      tauto

/-- Membership is preserved by the stable sort. -/
theorem mem_sortBy (le : α → α → Bool) (a : α) (l : List α) :
    a ∈ sortBy le l ↔ a ∈ l := by
  induction l with
  | nil => simp [sortBy]
  | cons b t ih => simp [sortBy, mem_insertSorted, ih]

/-- Stable insertion grows the length by one. -/
theorem length_insertSorted (le : α → α → Bool) (x : α) (l : List α) :
    (insertSorted le x l).length = l.length + 1 := by
  induction l with
  | nil => rfl
  | cons b t ih =>
    rw [insertSorted]
    split
    · simp
    · simp [ih]

/-- The stable sort preserves length. -/
theorem length_sortBy (le : α → α → Bool) (l : List α) :
    (sortBy le l).length = l.length := by
  induction l with
  | nil => rfl
  | cons b t ih => simp [sortBy, length_insertSorted, ih]

/-- Folding `min` over a constant list yields the constant. -/
theorem foldl_min_const (v : ℚ) (l : List ℚ) (a : ℚ) (ha : a = v)
    (h : ∀ x ∈ l, x = v) : l.foldl min a = v := by
  induction l generalizing a with
  | nil => simpa using ha
  | cons b t ih =>
    rw [List.foldl_cons]
    refine ih _ ?_ fun x hx => h x (by simp [hx])
    rw [ha, h b (by simp), min_self]

/-- Folding `max` over a constant list yields the constant. -/
theorem foldl_max_const (v : ℚ) (l : List ℚ) (a : ℚ) (ha : a = v)
    (h : ∀ x ∈ l, x = v) : l.foldl max a = v := by
  induction l generalizing a with
  | nil => simpa using ha
  | cons b t ih =>
    rw [List.foldl_cons]
    refine ih _ ?_ fun x hx => h x (by simp [hx])
    rw [ha, h b (by simp), max_self]

/-- Python `min` of a non-empty constant list. -/
theorem pyMin_const (v : ℚ) (l : List ℚ) (hne : l ≠ []) (h : ∀ x ∈ l, x = v) :
    pyMin l = some v := by
  cases l with
  | nil => exact absurd rfl hne
  | cons a t =>
    rw [pyMin]
    rw [foldl_min_const v t a (h a (by simp)) fun x hx => h x (by simp [hx])]

/-- Python `max` of a non-empty constant list. -/
theorem pyMax_const (v : ℚ) (l : List ℚ) (hne : l ≠ []) (h : ∀ x ∈ l, x = v) :
    pyMax l = some v := by
  cases l with
  | nil => exact absurd rfl hne
  | cons a t =>
    rw [pyMax]
    rw [foldl_max_const v t a (h a (by simp)) fun x hx => h x (by simp [hx])]

/-- When every candidate has the same axis value, every in-range axis key
equals that value. -/
theorem axisKey_const (configs : List Candidate) (sf : String) (v : ℚ)
    (hv : ∀ c ∈ configs, c.get sf = v) (i : ℕ) (hi : i < configs.length) :
    axisKey configs sf i = v := by
  rw [axisKey, List.getD_eq_getElem _ _ hi]
  exact hv _ (List.getElem_mem hi)

/-- The stably sorted index list enumerates exactly the in-range indices. -/
theorem mem_axisSortedIndices (configs : List Candidate) (sf dir : String) (i : ℕ) :
    i ∈ axisSortedIndices configs sf dir ↔ i < configs.length := by
  rw [axisSortedIndices]
  split <;> rw [mem_sortBy] <;> simp [List.mem_range]

/-- The stably sorted index list has one entry per candidate. -/
theorem length_axisSortedIndices (configs : List Candidate) (sf dir : String) :
    (axisSortedIndices configs sf dir).length = configs.length := by
  rw [axisSortedIndices]
  split <;> rw [length_sortBy, List.length_range]

/-- A sweet-spot comparison step keeps a zero best score when the compared
pair scores zero. -/
theorem sweetStep_zero (configs : List Candidate) (criteria : List Criterion)
    (sf dir : String) (minGap : ℚ) (si : List ℕ) (pos : ℕ)
    (acc : XRat × ℕ) (prevPos : ℕ) (hacc : acc.1 = .val 0)
    (hscore : computeGainScore (configs.getD (si.getD prevPos 0) ⟨[]⟩)
        (configs.getD (si.getD pos 0) ⟨[]⟩) criteria sf dir = .val 0) :
    (sweetStep configs criteria sf dir minGap si pos acc prevPos).1 = .val 0 := by
  rw [sweetStep]
  split
  · exact hacc
  · rw [hscore, hacc]
    simp [XRat.lt, hacc]

/-- The whole sweet-spot inner fold keeps a zero best score when every
compared pair scores zero. -/
theorem foldl_sweetStep_zero (configs : List Candidate) (criteria : List Criterion)
    (sf dir : String) (minGap : ℚ) (si : List ℕ) (pos : ℕ)
    (L : List ℕ) (acc : XRat × ℕ) (hacc : acc.1 = .val 0)
    (hall : ∀ p ∈ L, computeGainScore (configs.getD (si.getD p 0) ⟨[]⟩)
        (configs.getD (si.getD pos 0) ⟨[]⟩) criteria sf dir = .val 0) :
    ((L.foldl (sweetStep configs criteria sf dir minGap si pos) acc).1 = .val 0) := by
  induction L generalizing acc with
  | nil => exact hacc
  | cons p t ih =>
    rw [List.foldl_cons]
    exact ih _
      (sweetStep_zero configs criteria sf dir minGap si pos acc p hacc
        (hall p (by simp)))
      fun q hq => hall q (by simp [hq])

/-- The dominated-report indices are exactly the non-front indices of the
candidate range, in order. -/
theorem domEntryFor_index_map (configs : List Candidate) (criteria : List Criterion)
    (front : List ℕ) (l : List ℕ) :
    (l.filterMap (domEntryFor configs criteria front)).map DomEntry.index =
      l.filter fun i => !decide (i ∈ front) := by
  induction l with
  | nil => rfl
  | cons i t ih =>
    by_cases hi : i ∈ front
    · simp [List.filterMap_cons, domEntryFor, hi, ih, List.filter_cons]
    · simp [List.filterMap_cons, domEntryFor, hi, ih, List.filter_cons]

/-- The Pareto front of an empty candidate set is empty. -/
theorem computeParetoFront_nil (criteria : List Criterion) :
    computeParetoFront [] criteria = [] := rfl

/-- The dominated report of an empty candidate set is empty. -/
theorem computeDominated_nil (criteria : List Criterion) (front : List ℕ) :
    computeDominated [] criteria front = [] := rfl

/-- Sorting the indices of an empty candidate set gives the empty list. -/
theorem axisSortedIndices_nil (sf dir : String) :
    axisSortedIndices [] sf dir = [] := by
  rw [axisSortedIndices]
  split <;> rfl

/-- Sweet-spot detection returns empty on an empty candidate set. -/
theorem detectSweetSpots_nil (criteria : List Criterion) (sf dir : String) (thr : ℚ) :
    detectSweetSpots [] criteria sf dir thr = [] := by
  simp only [detectSweetSpots, axisSortedIndices_nil]
  rfl

/-- Trap detection returns empty on an empty candidate set. -/
theorem detectTraps_nil (criteria : List Criterion) (sfo : Option String) (tol : ℚ) :
    detectTraps [] criteria sfo tol = [] := rfl

/-- Tier-transition analysis returns empty on an empty candidate set. -/
theorem computeTierTransitions_nil (criteria : List Criterion) (sf dir : String) :
    computeTierTransitions [] criteria sf dir = [] := by
  simp only [computeTierTransitions, axisSortedIndices_nil]
  rfl

/-- On an empty candidate set, segment-best analysis raises Python's
`min() arg is an empty sequence`. -/
theorem computeSegmentBests_nil (criteria : List Criterion) (sf dir : String) :
    computeSegmentBests [] criteria sf dir = Except.error msgEmptyMin := rfl

/-- On an empty candidate set with at least one criterion, the min/max table
raises Python's `min() arg is an empty sequence`. -/
theorem buildMinMax_nil_cons (c : Criterion) (cs : List Criterion) :
    buildMinMax [] (c :: cs) = Except.error msgEmptyMin := rfl

/-- On an empty candidate set with at least one criterion, weighted ranking
raises through the min/max table. -/
theorem computeWeightedRanking_nil_cons (c : Criterion) (cs : List Criterion) :
    computeWeightedRanking [] (c :: cs) = Except.error msgEmptyMin := rfl

/-! Claim theorems. -/

/-- C1: contrary to the claim (and the spec), the core `analyze` call does
not complete on an empty candidate set with a non-empty criteria list: every
path raises Python's `min() arg is an empty sequence` ValueError — through
`compute_segment_bests` when an ordering axis is designated or auto-detected,
and through `_build_min_max` inside `compute_weighted_ranking` otherwise. -/
theorem c1_empty_candidates_crash (criteria : List Criterion)
    (sf dir : String) (thr tol : ℚ) (hne : criteria ≠ []) :
    analyze [] criteria sf dir thr tol = Except.error msgEmptyMin := by
  obtain ⟨c, cs, rfl⟩ : ∃ c cs, criteria = c :: cs := by
    cases criteria with
    | nil => exact absurd rfl hne
    | cons c cs => exact ⟨c, cs, rfl⟩
  by_cases hsf : sf = ""
  · by_cases hdet : (autoDetectSortField (c :: cs)).1 = ""
    · simp [analyze, hsf, hdet, computeParetoFront_nil, computeDominated_nil,
        computeWeightedRanking_nil_cons, Except.bind, Except.map]
    · simp [analyze, hsf, hdet, computeParetoFront_nil, computeDominated_nil,
        computeSegmentBests_nil, Except.bind, Except.map]
  · simp [analyze, hsf, computeParetoFront_nil, computeDominated_nil,
      computeSegmentBests_nil, Except.bind, Except.map]

unseal Rat.mul Rat.inv Rat.add Rat.sub in
/-- C1, witness: an empty candidate set with one minimize criterion and a
designated cost axis makes `analyze` raise. -/
theorem c1_witness :
    ([⟨"cost", "minimize", (1:ℚ)⟩] : List Criterion) ≠ [] ∧
    analyze [] [⟨"cost", "minimize", 1⟩] ("cost") ("asc") (85/100) (1/20) =
      Except.error msgEmptyMin :=
  ⟨by decide, c1_empty_candidates_crash _ _ _ _ _ (by decide)⟩

/-- C2: `build_criteria` signals the no-criteria configuration error before
the analysis runs: a successful build never yields an empty criteria list,
and a failed build short-circuits the pipeline, so no analysis result is
produced. -/
theorem c2_empty_criteria_fatal (sm : Option (List CD)) (mx mn : List String)
    (ca : List (String × String)) (wo : List (String × ℚ))
    (configs : List Candidate) (sf dir : String) (thr tol : ℚ) :
    (∀ cs, buildCriteria sm mx mn ca wo = Except.ok cs → cs ≠ []) ∧
    (∀ e, buildCriteria sm mx mn ca wo = Except.error e →
      runPipeline sm mx mn ca wo configs sf dir thr tol = Except.error e) := by
  constructor
  · intro cs hok
    simp only [buildCriteria] at hok
    split at hok
    · simp at hok
    · rename_i hbuilt
      rw [Except.ok.injEq] at hok
      subst hok
      exact hbuilt
  · intro e herr
    simp only [runPipeline, herr]
    rfl

/-- C2, witness: with no criteria sources at all, the configuration error is
signaled and the pipeline produces no analysis result. -/
theorem c2_witness :
    buildCriteria none [] [] [] [] = Except.error msgNoCriteria ∧
    runPipeline none [] [] [] [] [] ("") ("asc") (85/100) (1/20) =
      Except.error msgNoCriteria :=
  ⟨rfl,
    (c2_empty_criteria_fatal none [] [] [] [] [] ("") ("asc") (85/100) (1/20)).2
      msgNoCriteria rfl⟩

/-- C3: the Pareto front and the dominated report partition the index range:
front members are in range and never appear as dominated entries, dominated
entries are exactly the in-range non-front indices, and every in-range index
is on the front or is the index of exactly one dominated entry. -/
theorem c3_front_dominated_partition (configs : List Candidate)
    (criteria : List Criterion) (front : List ℕ) (domIdx : List ℕ)
    (hf : front = computeParetoFront configs criteria)
    (hd : domIdx = (computeDominated configs criteria front).map DomEntry.index) :
    (∀ i ∈ front, i < configs.length ∧ i ∉ domIdx) ∧
    (∀ i ∈ domIdx, i < configs.length ∧ i ∉ front) ∧
    (∀ i < configs.length, i ∈ front ∨ domIdx.count i = 1) := by
  subst hd
  rw [computeDominated, domEntryFor_index_map]
  have hdom : ∀ i, (i ∈ (List.range configs.length).filter
      (fun i => !decide (i ∈ front))) ↔ (i < configs.length ∧ i ∉ front) := by
    intro i
    simp [List.mem_filter, List.mem_range]
  have hfr : ∀ i ∈ front, i < configs.length := by
    intro i hi
    rw [hf, computeParetoFront] at hi
    simp only [List.mem_filter, List.mem_range] at hi
    exact hi.1
  refine ⟨?_, ?_, ?_⟩
  · intro i hi
    refine ⟨hfr i hi, fun hmem => ?_⟩
    exact ((hdom i).mp hmem).2 hi
  · intro i hi
    exact (hdom i).mp hi
  · intro i hil
    by_cases hif : i ∈ front
    · exact Or.inl hif
    · refine Or.inr ?_
      have hnd : ((List.range configs.length).filter
          (fun i => !decide (i ∈ front))).Nodup :=
        (List.nodup_range configs.length).filter _
      exact List.count_eq_one_of_mem hnd ((hdom i).mpr ⟨hil, hif⟩)

/-- C3, witness: on a concrete two-candidate input where candidate 1
dominates candidate 0, index 0 is on the front or counted exactly once in
the dominated report. -/
theorem c3_witness :
    0 < c3configs.length ∧
    (0 ∈ computeParetoFront c3configs c3criteria ∨
      ((computeDominated c3configs c3criteria
          (computeParetoFront c3configs c3criteria)).map DomEntry.index).count 0 = 1) :=
  ⟨by decide,
    (c3_front_dominated_partition c3configs c3criteria _ _ rfl rfl).2.2 0 (by decide)⟩

unseal Rat.mul Rat.inv Rat.add Rat.sub in
/-- C4, counterexample: on a concrete pair of bucket representatives the
perf ratio is 0.832 (positive and below 0.833) and the temp ratio is -1
(below 0.833), yet neither criterion is flagged as a key jump — only cost
(ratio 2) is. The source's flag condition is ratio > 1.2 or 0 < ratio <
0.83, not ratio < 0.833. -/
theorem c4_counterexample :
    (computeTierTransitions c4configs c4criteria ("cost") ("asc")).map
        Transition.keyJumps = [["cost"]] ∧
    (computeMarginalGains (c4configs.getD 0 ⟨[]⟩) (c4configs.getD 1 ⟨[]⟩)
        c4criteria).map Gain.rat = [.val 2, .val (104/125), .val (-1)] ∧
    (104:ℚ)/125 < 833/1000 ∧ (0:ℚ) < 104/125 ∧ (-1:ℚ) < 833/1000 := by
  exact ⟨by decide, by decide, by decide, by decide, by decide⟩

/-- C4, amended: in every reported tier transition, a criterion is flagged
as a key jump exactly when its rounded marginal-gain ratio is greater than
1.2 or strictly between 0 and 0.83. -/
theorem c4_key_jump_amended (configs : List Candidate) (criteria : List Criterion)
    (sf dir : String) (t : Transition)
    (ht : t ∈ computeTierTransitions configs criteria sf dir) (name : String) :
    name ∈ t.keyJumps ↔
      ∃ g ∈ computeMarginalGains (configs.getD t.fromIdx ⟨[]⟩)
          (configs.getD t.toIdx ⟨[]⟩) criteria,
        g.field = name ∧
          (XRat.lt (.val (12/10)) g.rat = true ∨
            (XRat.lt (.val 0) g.rat = true ∧ XRat.lt g.rat (.val (83/100)) = true)) := by
  simp only [computeTierTransitions] at ht
  split at ht
  · simp at ht
  · split at ht
    · simp at ht
    · rw [List.mem_filterMap] at ht
      obtain ⟨p, _, he⟩ := ht
      simp only [mkTransition] at he
      split at he
      · simp at he
      · rw [Option.some.injEq] at he
        subst he
        simp only [keyJumpFields, List.mem_map, List.mem_filter,
          Bool.or_eq_true, Bool.and_eq_true]
        constructor
        · rintro ⟨g, ⟨hg, hcond⟩, hfield⟩
          exact ⟨g, hg, hfield, hcond⟩
        · rintro ⟨g, hg, hfield, hcond⟩
          exact ⟨g, ⟨hg, hcond⟩, hfield⟩

unseal Rat.mul Rat.inv Rat.add Rat.sub in
/-- C4, witness for the amended theorem: the concrete transition of
`c4configs` and the criterion name perf. -/
theorem c4_key_jump_witness :
    c4trans ∈ computeTierTransitions c4configs c4criteria ("cost") ("asc") ∧
    (("perf" ∈ c4trans.keyJumps) ↔
      ∃ g ∈ computeMarginalGains (c4configs.getD c4trans.fromIdx ⟨[]⟩)
          (c4configs.getD c4trans.toIdx ⟨[]⟩) c4criteria,
        g.field = "perf" ∧
          (XRat.lt (.val (12/10)) g.rat = true ∨
            (XRat.lt (.val 0) g.rat = true ∧ XRat.lt g.rat (.val (83/100)) = true))) :=
  ⟨by decide,
    c4_key_jump_amended c4configs c4criteria ("cost") ("asc") c4trans (by decide) ("perf")⟩

unseal Rat.mul Rat.inv Rat.add Rat.sub in
/-- C5, counterexample: with a zero observed axis range (both candidates at
cost 5) and threshold 0, `detect_sweet_spots` emits an entry (every gain
score is 0 and 0 >= 0), so the analyses do not all return empty for every
threshold value. -/
theorem c5_counterexample :
    c5configs.map (fun c => c.get ("cost")) = [5, 5] ∧
    (detectSweetSpots c5configs c5criteria ("cost") ("asc") 0).length = 1 := by
  exact ⟨by decide, by decide⟩

/-- C5, amended: when the observed ordering-axis range is zero, the
tier-transition and segment-best analyses return empty for every parameter,
and the sweet-spot analysis returns empty for every positive threshold; no
division by zero occurs (the embedding is total and takes the guarded
branches). -/
theorem c5_zero_axis_range_amended (configs : List Candidate)
    (criteria : List Criterion) (sf dir : String) (threshold v : ℚ)
    (hne : configs ≠ []) (hv : ∀ c ∈ configs, c.get sf = v) (hthr : 0 < threshold) :
    detectSweetSpots configs criteria sf dir threshold = [] ∧
    computeTierTransitions configs criteria sf dir = [] ∧
    computeSegmentBests configs criteria sf dir = .ok [] := by
  have hlen := length_axisSortedIndices configs sf dir
  have hkey : ∀ q, q < (axisSortedIndices configs sf dir).length →
      (configs.getD ((axisSortedIndices configs sf dir).getD q 0) ⟨[]⟩).get sf = v := by
    intro q hq
    have hmem : (axisSortedIndices configs sf dir).getD q 0 ∈
        axisSortedIndices configs sf dir := by
      rw [List.getD_eq_getElem _ _ hq]
      exact List.getElem_mem hq
    have hlt := (mem_axisSortedIndices configs sf dir _).mp hmem
    rw [List.getD_eq_getElem _ _ hlt]
    exact hv _ (List.getElem_mem hlt)
  have hsv_const : ∀ x ∈ (axisSortedIndices configs sf dir).map (axisKey configs sf),
      x = v := by
    intro x hx
    rw [List.mem_map] at hx
    obtain ⟨i, hi, rfl⟩ := hx
    exact axisKey_const configs sf v hv i ((mem_axisSortedIndices configs sf dir i).mp hi)
  have hsv_ne : (axisSortedIndices configs sf dir).map (axisKey configs sf) ≠ [] := by
    intro h
    apply hne
    have hl : ((axisSortedIndices configs sf dir).map (axisKey configs sf)).length = 0 := by
      rw [h]
      rfl
    rw [List.length_map, hlen] at hl
    exact List.length_eq_zero.mp hl
  have hmax := pyMax_const v _ hsv_ne hsv_const
  have hmin := pyMin_const v _ hsv_ne hsv_const
  have hnil : ∀ (mg : ℚ) (L : List ℕ),
      (∀ pos ∈ L, pos < (axisSortedIndices configs sf dir).length) →
      L.filterMap (sweetSpotAt configs criteria sf dir threshold mg
        (axisSortedIndices configs sf dir)) = [] := by
    intro mg L hL
    rw [List.filterMap_eq_nil_iff]
    intro pos hpos
    rw [sweetSpotAt]
    have hbest : (sweetBest configs criteria sf dir mg
        (axisSortedIndices configs sf dir) pos).1 = .val 0 := by
      rw [sweetBest]
      refine foldl_sweetStep_zero configs criteria sf dir mg _ pos _ _ rfl ?_
      intro p hp
      refine computeGainScore_flat _ _ _ _ _ ?_
      have hppos : p < pos := by
        rw [List.mem_range] at hp
        exact hp
      rw [hkey p (hppos.trans (hL pos hpos)), hkey pos (hL pos hpos)]
    rw [hbest]
    simp [XRat.le, hthr.not_le]
  refine ⟨?_, ?_, ?_⟩
  · simp only [detectSweetSpots]
    split
    · rfl
    · rw [hnil _ _ fun pos hpos => ?_]
      · rfl
      · have := List.mem_of_mem_drop hpos
        rw [List.mem_range] at this
        exact this
  · simp only [computeTierTransitions]
    split
    · rfl
    · rw [hmax, hmin]
      simp
  · simp only [computeSegmentBests]
    have hvals_ne : configs.map (fun cfg => cfg.get sf) ≠ [] := by
      intro h
      apply hne
      have hl : (configs.map fun cfg => cfg.get sf).length = 0 := by
        rw [h]
        rfl
      rw [List.length_map] at hl
      exact List.length_eq_zero.mp hl
    have hvc : ∀ x ∈ configs.map (fun cfg => cfg.get sf), x = v := by
      intro x hx
      rw [List.mem_map] at hx
      obtain ⟨c, hc, rfl⟩ := hx
      exact hv c hc
    rw [pyMin_const v _ hvals_ne hvc, pyMax_const v _ hvals_ne hvc]
    simp

unseal Rat.mul Rat.inv Rat.add Rat.sub in
/-- C5, witness for the amended theorem at the default threshold 0.85 on the
zero-range input `c5configs`. -/
theorem c5_witness :
    c5configs ≠ [] ∧ (0:ℚ) < 85/100 ∧
    (detectSweetSpots c5configs c5criteria ("cost") ("asc") (85/100) = [] ∧
      computeTierTransitions c5configs c5criteria ("cost") ("asc") = [] ∧
      computeSegmentBests c5configs c5criteria ("cost") ("asc") = .ok []) :=
  ⟨by decide, by decide,
    c5_zero_axis_range_amended c5configs c5criteria ("cost") ("asc") (85/100) 5
      (by decide) (by decide) (by decide)⟩

unseal Rat.mul Rat.inv Rat.add Rat.sub in
/-- C6, counterexample: the claim says `normalize` always returns a value in
[0,1] for every input value; but for a value outside the observed [min,max]
band the source returns an out-of-range result, here 2 for
`_normalize_value(2, 0, 1, "maximize")`. -/
theorem c6_counterexample :
    normalizeValue 2 0 1 ("maximize") = 2 ∧ ¬normalizeValue 2 0 1 ("maximize") ≤ 1 := by
  exact ⟨by decide, by decide⟩

/-- C6, amended: for min ≤ value ≤ max the normalization function returns a
value in [0,1]; it returns exactly 0.5 whenever min equals max; and for a
minimize direction on a non-degenerate axis the scaled value is inverted
(`1 - scaled`) so that 1.0 means best. -/
theorem c6_normalize_amended (value minVal maxVal : ℚ) (direction : String) :
    (minVal = maxVal → normalizeValue value minVal maxVal direction = 1/2) ∧
    (minVal ≤ value → value ≤ maxVal →
      0 ≤ normalizeValue value minVal maxVal direction ∧
        normalizeValue value minVal maxVal direction ≤ 1) ∧
    (minVal ≠ maxVal → direction = "minimize" →
      normalizeValue value minVal maxVal direction =
        1 - (value - minVal) / (maxVal - minVal)) := by
  refine ⟨?_, ?_, ?_⟩
  · intro h
    simp [normalizeValue, h]
  · intro h1 h2
    by_cases he : maxVal = minVal
    · rw [normalizeValue, if_pos he]
      norm_num
    · have hlt : minVal < maxVal :=
        lt_of_le_of_ne (h1.trans h2) fun h => he h.symm
      have hdpos : 0 < maxVal - minVal := by linarith
      have hn0 : 0 ≤ (value - minVal) / (maxVal - minVal) :=
        div_nonneg (by linarith) hdpos.le
      have hn1 : (value - minVal) / (maxVal - minVal) ≤ 1 :=
        (div_le_one hdpos).mpr (by linarith)
      rw [normalizeValue, if_neg he]
      split
      · constructor <;> linarith
      · exact ⟨hn0, hn1⟩
  · intro hne hdir
    subst hdir
    have : ¬maxVal = minVal := fun h => hne h.symm
    simp [normalizeValue, this]

/-- C6, witness for the amended theorem at value 1/4 on the axis [0,1] with
a minimize direction. -/
theorem c6_witness :
    (0:ℚ) ≤ 1/4 ∧ (1/4:ℚ) ≤ 1 ∧
      (0 ≤ normalizeValue (1/4) 0 1 ("minimize") ∧
        normalizeValue (1/4) 0 1 ("minimize") ≤ 1) :=
  ⟨by norm_num, by norm_num,
    (c6_normalize_amended (1/4) 0 1 ("minimize")).2.1 (by norm_num) (by norm_num)⟩

/-- C7: the gain score is exactly 0 for every pair moving backward or flat
along the ordering axis (ascending: to ≤ from; descending: to ≥ from). -/
theorem c7_no_gain_on_regression (cfgFrom cfgTo : Candidate)
    (criteria : List Criterion) (sf dir : String)
    (h : (dir = "asc" ∧ cfgTo.get sf ≤ cfgFrom.get sf) ∨
         (dir = "desc" ∧ cfgFrom.get sf ≤ cfgTo.get sf)) :
    computeGainScore cfgFrom cfgTo criteria sf dir = .val 0 := by
  rcases h with ⟨hd, hle⟩ | ⟨hd, hle⟩ <;> subst hd <;>
    by_cases h0 : cfgFrom.get sf = 0 <;>
    simp [computeGainScore, h0, hle]

/-- C7, witness: a backward move along an ascending cost axis (7 to 3) with
a large perf improvement still scores 0. -/
theorem c7_witness :
    Candidate.get ⟨[("cost", 3), ("perf", 100)]⟩ ("cost") ≤
      Candidate.get ⟨[("cost", 7), ("perf", 1)]⟩ ("cost") ∧
    computeGainScore ⟨[("cost", 7), ("perf", 1)]⟩ ⟨[("cost", 3), ("perf", 100)]⟩
      [⟨"perf", "maximize", 1⟩] ("cost") ("asc") = .val 0 :=
  ⟨by decide,
    c7_no_gain_on_regression _ _ _ _ _ (Or.inl ⟨rfl, by decide⟩)⟩

/-- C8: the dominance relation is irreflexive (no candidate dominates
itself) and antisymmetric (if b dominates a then a does not dominate b). -/
theorem c8_dominance_irrefl_antisymm (a b : Candidate) (criteria : List Criterion) :
    isDominated a a criteria = false ∧
      (isDominated a b criteria = true → isDominated b a criteria = false) := by
  constructor
  · rw [isDominated_eq]
    have hany : criteria.any (strictBetter a a) = false := by
      simp only [List.any_eq_false]
      intro c _
      simp [strictBetter_self]
    simp [hany]
  · intro h
    rw [isDominated_eq] at h
    simp only [Bool.and_eq_true, List.all_eq_true, List.any_eq_true] at h
    obtain ⟨_, c, hc, hstrict⟩ := h
    rw [isDominated_eq]
    have hnw : noWorse b a c = false := by
      rw [strictBetter] at hstrict
      rw [noWorse]
      split at hstrict <;> rename_i hdir <;> simp only [hdir, if_true, if_false] <;>
        simp only [decide_eq_true_eq] at hstrict <;> simp [not_le.mpr hstrict]
    have hall : criteria.all (noWorse b a) = false := by
      simp only [List.all_eq_false]
      exact ⟨c, hc, by simp [hnw]⟩
    simp [hall]

/-- C8, witness: with one maximize criterion, (perf 2) dominates (perf 1),
and antisymmetry yields that (perf 1) does not dominate (perf 2). -/
theorem c8_witness :
    isDominated ⟨[("perf", 1)]⟩ ⟨[("perf", 2)]⟩ [⟨"perf", "maximize", 1⟩] = true ∧
    isDominated ⟨[("perf", 2)]⟩ ⟨[("perf", 1)]⟩ [⟨"perf", "maximize", 1⟩] = false :=
  ⟨by decide,
    (c8_dominance_irrefl_antisymm ⟨[("perf", 1)]⟩ ⟨[("perf", 2)]⟩
      [⟨"perf", "maximize", 1⟩]).2 (by decide)⟩

/-- C9: when the from-candidate's axis value is 0, the gain score is 0
(the early return fires before any ratio is formed, so the +inf/1.0
zero-denominator sentinels never apply to the axis itself). -/
theorem c9_zero_axis_start (cfgFrom cfgTo : Candidate) (criteria : List Criterion)
    (sf dir : String) (h : cfgFrom.get sf = 0) :
    computeGainScore cfgFrom cfgTo criteria sf dir = .val 0 := by
  simp [computeGainScore, h]

/-- C9, witness: a strictly forward move (cost 0 to 10, ascending) with a
perf improvement still scores 0 because the axis start is 0. -/
theorem c9_witness :
    Candidate.get ⟨[("cost", 0), ("perf", 1)]⟩ ("cost") = 0 ∧
    Candidate.get ⟨[("cost", 0), ("perf", 1)]⟩ ("cost") <
      Candidate.get ⟨[("cost", 10), ("perf", 5)]⟩ ("cost") ∧
    computeGainScore ⟨[("cost", 0), ("perf", 1)]⟩ ⟨[("cost", 10), ("perf", 5)]⟩
      [⟨"perf", "maximize", 1⟩] ("cost") ("asc") = .val 0 :=
  ⟨by decide, by decide,
    c9_zero_axis_start _ _ _ _ _ (by decide)⟩

unseal Rat.mul Rat.inv Rat.add Rat.sub in
/-- C10: in trap detection, a maximize criterion counts as "j better" exactly
when the value difference exceeds 10 percent of the larger absolute value
(floored at 1e-9); consequently the change 10 to 11 has relative margin 1/11
and is not counted as better, and the spec's Scenario B input yields no
trap. -/
theorem c10_trap_margin_max_denominator (ci cj : ℚ) :
    (((trapCounts ⟨[("m", ci)]⟩ ⟨[("m", cj)]⟩ [⟨"m", "maximize", 1⟩]).1 = 1) ↔
      1/10 < (cj - ci) / max (max |ci| |cj|) (1/1000000000)) ∧
    (trapCounts ⟨[("m", (10:ℚ))]⟩ ⟨[("m", (11:ℚ))]⟩ [⟨"m", "maximize", 1⟩]).1 = 0 ∧
    ((11:ℚ) - 10) / max (max |(10:ℚ)| |(11:ℚ)|) (1/1000000000) = 1/11 ∧
    detectTraps c10configs c10criteria (some ("cost")) (1/20) = [] := by
  refine ⟨?_, by decide, by decide, by decide⟩
  have hred : trapCounts ⟨[("m", ci)]⟩ ⟨[("m", cj)]⟩ [⟨"m", "maximize", 1⟩] =
      (if 1/10 < (cj - ci) / max (max |ci| |cj|) (1/1000000000) then ((1:ℕ), (0:ℕ))
       else if 1/10 < (ci - cj) / max (max |ci| |cj|) (1/1000000000) then (0, 1)
       else (0, 0)) := rfl
  rw [hred]
  by_cases h : 1/10 < (cj - ci) / max (max |ci| |cj|) (1/1000000000)
  · rw [if_pos h]
    exact ⟨fun _ => h, fun _ => rfl⟩
  · rw [if_neg h]
    constructor
    · intro h1
      split at h1 <;> simp at h1
    · intro h1
      exact absurd h1 h

end ParetoDecide
